import Mathlib

/-!
Verification of the per-record processing pipeline in `main_without_db.py`
(class `VideoProcessor`): URL classifier, record scanner, transcript fetcher,
summarizer, status writer, record processor and run loop, modelled as a
shallow embedding.  Python strings are `List Char`; the external
collaborators (spreadsheet client, transcription client, LLM client) are an
oracle `Env` whose primitives return `Except`, with `Except.error` modelling
a raised exception; each embedded function returns its Python result as an
`Except` (so an uncaught exception is visible as `.error`) together with a
trace of observable effects (status-writer invocations, attempted cell
writes, LLM calls, log lines).
-/

namespace YtAuto

/-- Python strings, modelled as lists of characters. -/
abbrev Str := List Char

/-- Python `str.lower()`, per-character lowercasing. -/
def lower (s : Str) : Str := s.map Char.toLower

/-- Python `str.strip()`: remove leading and trailing whitespace. -/
def strip (s : Str) : Str :=
  (s.dropWhile Char.isWhitespace).rdropWhile Char.isWhitespace

/-- Python substring test `sub in s`. -/
def containsSub (s sub : Str) : Bool := decide (sub <:+: s)

/-- The domain allow-list of `is_supported_video_url` (lines 92-101). -/
def supported_domains : List Str :=
  ["youtube.com".data, "youtu.be".data,
   "twitter.com".data, "x.com".data,
   "vimeo.com".data,
   "tiktok.com".data,
   "instagram.com".data,
   "facebook.com".data, "fb.com".data,
   "linkedin.com".data,
   "reddit.com".data]

/-- `is_supported_video_url` (line 103): some supported domain occurs in
`url.lower()` as a substring. -/
def is_supported_video_url (url : Str) : Bool :=
  supported_domains.any (fun domain => containsSub (lower url) domain)

/-- Status label written on entry of `process_url`. -/
def PROCESSING : Str := "PROCESSING".data

/-- Status label written on success of `process_url`. -/
def COMPLETED : Str := "COMPLETED".data

/-- Status label written on failure of `process_url`. -/
def ERROR : Str := "ERROR".data

/-- The visible truncation marker appended by both truncations
(lines 159 and 220). -/
def truncMarker : Str := "... [TRUNCATED]".data

/-- `max_chars` of `analyze_with_gemini` (line 157). -/
def gemini_max_chars : Nat := 100000

/-- `max_cell_chars` of `update_sheet_status` (line 218). -/
def sheet_max_cell_chars : Nat := 50000

/-- The transcript truncation of `analyze_with_gemini` (lines 158-159). -/
def truncate_transcript (transcript : Str) : Str :=
  if transcript.length > gemini_max_chars then
    transcript.take gemini_max_chars ++ truncMarker
  else transcript

/-- The result truncation of `update_sheet_status` (lines 219-220). -/
def truncate_result (result : Str) : Str :=
  if result.length > sheet_max_cell_chars then
    result.take sheet_max_cell_chars ++ truncMarker
  else result

/-- The spreadsheet columns written by `update_sheet_status`. -/
inductive Col : Type
  | B
  | C
  deriving DecidableEq

/-- Observable effects of a run: a Status-Writer invocation
(`update_sheet_status` call), an attempted cell write (`update_acell` call),
a request sent to the LLM collaborator (`generate_content` call), and a log
line. -/
inductive Eff : Type
  | statusCall (row : Nat) (status : Str) (result : Str)
  | cellWrite (col : Col) (row : Nat) (val : Str)
  | geminiCall (contents : Str)
  | log (msg : Str)
  deriving DecidableEq

/-- The heterogeneous response shapes of the transcription collaborator that
`get_transcript` handles (lines 118-141): an object with a `content`
attribute, a mapping with a `content` key, a raw string, or some other
object exposing a set of named attributes. -/
inductive TResp : Type
  | withContent (content : Str) (lang : Option Str)
  | dictContent (content : Str) (lang : Option Str)
  | rawStr (s : Str)
  | other (attrs : List (Str × Str))

/-- The external collaborators, as an oracle.  `Except.error msg` models the
collaborator call raising an exception with message `msg`. -/
structure Env : Type where
  get_all_values : Except Str (List (List Str))
  update_acell : Col → Nat → Str → Except Str Unit
  supadata_transcript : Str → Except Str TResp
  generate_content : Str → Except Str (Option Str)
  prompt : Str

/-- The fallback attribute names tried by `get_transcript` (line 137). -/
def fallback_attr_names : List Str :=
  ["text".data, "transcript".data, "data".data, "result".data]

/-- Attribute lookup on the modelled dynamic object. -/
def findAttr (attrs : List (Str × Str)) (name : Str) : Option Str :=
  (attrs.find? (fun a => a.1 == name)).map (fun a => a.2)

/-- First fallback attribute present, in order (lines 137-141). -/
def firstAttr (attrs : List (Str × Str)) : List Str → Option Str
  | [] => none
  | n :: ns =>
    match findAttr attrs n with
    | some c => some c
    | none => firstAttr attrs ns

/-- The shape normalization of `get_transcript` (lines 118-144): `content`
attribute, `content` key, raw string, then the fallback attribute names;
`none` when nothing matches. -/
def extract_transcript : TResp → Option Str
  | .withContent c _ => some c
  | .dictContent c _ => some c
  | .rawStr s => some s
  | .other attrs => firstAttr attrs fallback_attr_names

/-- `get_transcript` (lines 105-151).  The whole body is inside
`try/except`, so every collaborator exception is converted to `none` with a
log line. -/
def get_transcript (env : Env) (url : Str) : Except Str (Option Str) × List Eff :=
  match env.supadata_transcript url with
  | .error e => (.ok none, [.log ("Error getting transcript: ".data ++ e)])
  | .ok resp =>
    match extract_transcript resp with
    | some c => (.ok (some c), [.log "Transcript retrieved".data])
    | none => (.ok none, [.log "Could not extract content from transcript object".data])

/-- `analyze_with_gemini` (lines 153-178).  The transcript is truncated,
sent to the LLM collaborator, and `response.parsed.text` is extracted;
`.ok none` from the collaborator models `parsed` being `None` (so that
`.text` raises), and every exception is caught and converted to `none`. -/
def analyze_with_gemini (env : Env) (transcript : Str) (system_prompt : Str) :
    Except Str (Option Str) × List Eff :=
  let contents := truncate_transcript transcript
  match env.generate_content contents with
  | .error e =>
    (.ok none, [.geminiCall contents, .log ("Gemini analysis failed: ".data ++ e)])
  | .ok none =>
    (.ok none, [.geminiCall contents, .log "Gemini analysis failed: no parsed text".data])
  | .ok (some t) =>
    (.ok (some t), [.geminiCall contents, .log "Gemini analysis completed".data])

/-- The `url` extracted from a row by `get_new_urls` (line 190):
`row[0].strip()` with empty-string default. -/
def rowUrl (row : List Str) : Str := strip (row.getD 0 [])

/-- The `status` extracted from a row by `get_new_urls` (line 191):
`row[2].strip()` with empty-string default. -/
def rowStatus (row : List Str) : Str := strip (row.getD 2 [])

/-- The per-row filter of the `get_new_urls` loop (lines 187-199): skip
empty rows, rows whose URL is empty or unsupported, and rows whose status is
one of the known labels or strips to something non-empty. -/
def eligible (row : List Str) : Bool :=
  if row.isEmpty then false
  else
    let url := rowUrl row
    let status := rowStatus row
    if url.isEmpty || !is_supported_video_url url then false
    else if decide (status ∈ [PROCESSING, COMPLETED, ERROR]) || !(strip status).isEmpty then
      false
    else true

/-- The row loop of `get_new_urls` (lines 186-204): emit
`{url, rowIndex}` for every eligible row, with `enumerate(..., start=1)`
indices, preserving row order. -/
def scanRows : Nat → List (List Str) → List (Str × Nat)
  | _, [] => []
  | idx, row :: rest =>
    if eligible row then (rowUrl row, idx) :: scanRows (idx + 1) rest
    else scanRows (idx + 1) rest

/-- `get_new_urls` (lines 180-211): read all rows and scan them; a failing
store read is caught and yields the empty worklist with a log line. -/
def get_new_urls (env : Env) : Except Str (List (Str × Nat)) × List Eff :=
  match env.get_all_values with
  | .error e => (.ok [], [.log ("Failed to get URLs from sheet: ".data ++ e)])
  | .ok rows => (.ok (scanRows 1 rows), [.log "Found new URLs to process".data])

/-- The result-column block of `update_sheet_status` (lines 216-227): when
`result` is non-empty, truncate it and attempt the column-B write inside its
own `try/except`, so its failure only produces a log line. -/
def write_result_effs (env : Env) (row : Nat) (result : Str) : List Eff :=
  if result = [] then []
  else
    let r := truncate_result result
    match env.update_acell Col.B row r with
    | .ok _ => [.cellWrite Col.B row r, .log "Updated result".data]
    | .error e => [.cellWrite Col.B row r, .log ("Failed to update result: ".data ++ e)]

/-- The status-column block of `update_sheet_status` (lines 229-234): always
attempt the column-C write inside its own `try/except`. -/
def write_status_effs (env : Env) (row : Nat) (status : Str) : List Eff :=
  match env.update_acell Col.C row status with
  | .ok _ => [.cellWrite Col.C row status, .log "Updated status".data]
  | .error e => [.cellWrite Col.C row status, .log ("Failed to update status: ".data ++ e)]

/-- The body of `update_sheet_status` inside the outer `try` (lines
215-234): the result block, then the status block.  Both blocks handle
their own failures, so the body itself cannot raise. -/
def update_sheet_status_body (env : Env) (row : Nat) (status : Str) (result : Str) :
    Except Str Unit × List Eff :=
  (.ok (), write_result_effs env row result ++ write_status_effs env row status)

/-- `update_sheet_status` (lines 213-237): body wrapped in the outer
`try/except` (lines 236-237); the leading `statusCall` effect records the
invocation itself. -/
def update_sheet_status (env : Env) (row : Nat) (status : Str) (result : Str) :
    Except Str Unit × List Eff :=
  match update_sheet_status_body env row status result with
  | (.ok u, effs) => (.ok u, .statusCall row status result :: effs)
  | (.error e, effs) =>
    (.ok (), .statusCall row status result ::
      (effs ++ [.log ("Failed to update sheet row: ".data ++ e)]))

/-- The message of the exception raised at line 253. -/
def noTranscriptMsg : Str := "Could not retrieve transcript using Supadata".data

/-- The message of the exception raised at line 260. -/
def geminiFailedMsg : Str := "Gemini analysis failed".data

/-- The prefix of every error message written by `process_url` (line 269). -/
def errPrefix : Str := "Error: ".data

/-- The `try` block of `process_url` (lines 249-266): fetch the transcript
(Python's `if not transcript` treats both `None` and the empty string as
failure), summarize (same falsiness check), then write `COMPLETED` with the
summary.  An `.error` result models the `raise` reaching the `except`. -/
def process_url_try (env : Env) (url : Str) (row : Nat) : Except Str Bool × List Eff :=
  let t := get_transcript env url
  match t.1 with
  | .error e => (.error e, t.2)
  | .ok none => (.error noTranscriptMsg, t.2)
  | .ok (some transcript) =>
    if transcript = [] then (.error noTranscriptMsg, t.2)
    else
      let a := analyze_with_gemini env transcript env.prompt
      match a.1 with
      | .error e => (.error e, t.2 ++ a.2)
      | .ok none => (.error geminiFailedMsg, t.2 ++ a.2)
      | .ok (some analysis) =>
        if analysis = [] then (.error geminiFailedMsg, t.2 ++ a.2)
        else
          let w := update_sheet_status env row COMPLETED analysis
          match w.1 with
          | .error e => (.error e, t.2 ++ a.2 ++ w.2)
          | .ok _ => (.ok true, t.2 ++ a.2 ++ w.2)

/-- `process_url` (lines 239-273): write `PROCESSING` (outside the `try`,
line 247), run the `try` block, and on any failure write `ERROR` with
`"Error: " + str(e)` and return `False`. -/
def process_url (env : Env) (url : Str) (row : Nat) : Except Str Bool × List Eff :=
  let p1 := update_sheet_status env row PROCESSING []
  match p1.1 with
  | .error e => (.error e, p1.2)
  | .ok _ =>
    let inner := process_url_try env url row
    match inner.1 with
    | .ok b => (.ok b, p1.2 ++ inner.2)
    | .error e =>
      let p2 := update_sheet_status env row ERROR (errPrefix ++ e)
      match p2.1 with
      | .error e2 => (.error e2, p1.2 ++ inner.2 ++ p2.2)
      | .ok _ => (.ok false, p1.2 ++ inner.2 ++ p2.2)

/-- The worklist loop of `run` (lines 289-298): process each entry, counting
successes and errors; an exception escaping `process_url` is caught by the
inner `except` and counted as an error. -/
def runLoop (env : Env) : List (Str × Nat) → Nat × Nat × List Eff
  | [] => (0, 0, [])
  | (url, row) :: rest =>
    let r := process_url env url row
    let step : Nat × Nat :=
      match r.1 with
      | .ok true => (1, 0)
      | .ok false => (0, 1)
      | .error _ => (0, 1)
    let rec_ := runLoop env rest
    (step.1 + rec_.1, step.2 + rec_.2.1, r.2 ++ rec_.2.2)

/-- `run` (lines 275-303): scan, return early on an empty worklist, else
drive the loop; a failure of `get_new_urls` itself would be caught by the
outer `except` (line 302). -/
def run (env : Env) : Except Str Unit × List Eff :=
  match get_new_urls env with
  | (.error e, e1) => (.ok (), e1 ++ [.log ("Pipeline failed: ".data ++ e)])
  | (.ok [], e1) => (.ok (), e1 ++ [.log "No new URLs to process".data])
  | (.ok entries, e1) =>
    let l := runLoop env entries
    (.ok (), e1 ++ l.2.2 ++ [.log "Processing complete".data])

/-- The Status-Writer invocations for a given row recorded in a trace, as
(status, result) pairs in order. -/
def statusCalls (row : Nat) (effs : List Eff) : List (Str × Str) :=
  effs.filterMap fun e =>
    match e with
    | .statusCall r s v => if r = row then some (s, v) else none
    | _ => none

/-- The contents sent to the LLM collaborator recorded in a trace. -/
def geminiSent (effs : List Eff) : List Str :=
  effs.filterMap fun e =>
    match e with
    | .geminiCall c => some c
    | _ => none

/-- Effects that touch the store: Status-Writer invocations and attempted
cell writes. -/
def isStoreWrite : Eff → Bool
  | .statusCall _ _ _ => true
  | .cellWrite _ _ _ => true
  | _ => false

/-- A concrete environment in which every collaborator succeeds. -/
def envOk : Env where
  get_all_values := .ok []
  update_acell := fun _ _ _ => .ok ()
  supadata_transcript := fun _ => .ok (.withContent "hello world".data none)
  generate_content := fun _ => .ok (some "summary".data)
  prompt := []

/-- A concrete environment whose transcription collaborator raises. -/
def envFetchFail : Env :=
  { envOk with supadata_transcript := fun _ => .error "supadata down".data }

/-- A concrete environment whose column-B writes raise and whose column-C
writes succeed. -/
def envBFail : Env :=
  { envOk with
    update_acell := fun c _ _ =>
      match c with
      | Col.B => .error "write failed".data
      | Col.C => .ok () }

/-- A concrete environment whose store read raises. -/
def envReadFail : Env :=
  { envOk with get_all_values := .error "read failed".data }

/-- A concrete one-row store: a supported URL with empty result and status. -/
def demoRows : List (List Str) := [["https://youtu.be/abc".data, [], []]]

/-- A concrete environment whose store read yields `demoRows`. -/
def envScan : Env :=
  { envOk with get_all_values := .ok demoRows }

/-- A concrete environment whose store holds one row with a supported URL
and a whitespace-only status cell. -/
def envWsStatus : Env :=
  { envOk with get_all_values := .ok [["https://youtu.be/abc".data, [], " ".data]] }

/-- A concrete environment whose store holds one row with a supported URL
and the status cell "X". -/
def envXStatus : Env :=
  { envOk with get_all_values := .ok [["https://youtu.be/abc".data, [], "X".data]] }

/-! ### String helper lemmas -/

lemma dropWhile_self_of_append (p : Char → Bool) (u r : List Char)
    (h : List.dropWhile p (u ++ r) = u ++ r) : List.dropWhile p u = u := by
  cases u with
  | nil => rfl
  | cons a u' =>
    rw [List.cons_append, List.dropWhile_cons] at h
    by_cases hp : p a
    · exfalso
      rw [if_pos hp] at h
      have hle := (List.dropWhile_suffix (l := u' ++ r) p).sublist.length_le
      rw [h] at hle
      simp only [List.length_cons] at hle
      omega
    · rw [List.dropWhile_cons, if_neg hp]

lemma strip_idem (s : Str) : strip (strip s) = strip s := by
  unfold strip
  have htt : List.dropWhile Char.isWhitespace (s.dropWhile Char.isWhitespace) =
      s.dropWhile Char.isWhitespace := List.dropWhile_idempotent _ _
  generalize s.dropWhile Char.isWhitespace = t at htt ⊢
  obtain ⟨r, hr⟩ := List.rdropWhile_prefix Char.isWhitespace t
  have h2 : List.dropWhile Char.isWhitespace (List.rdropWhile Char.isWhitespace t) =
      List.rdropWhile Char.isWhitespace t := by
    apply dropWhile_self_of_append Char.isWhitespace _ r
    rw [hr]
    exact htt
  rw [h2, List.rdropWhile_idempotent]

lemma strip_nil : strip [] = [] := rfl

/-! ### Truncation lemmas -/

lemma truncMarker_length : truncMarker.length = 15 := rfl

lemma truncate_result_of_le (result : Str) (h : result.length ≤ sheet_max_cell_chars) :
    truncate_result result = result := by
  unfold truncate_result
  rw [if_neg (by omega)]

lemma truncate_result_of_gt (result : Str) (h : sheet_max_cell_chars < result.length) :
    truncate_result result = result.take sheet_max_cell_chars ++ truncMarker := by
  unfold truncate_result
  rw [if_pos h]

lemma truncate_result_length (result : Str) :
    (truncate_result result).length ≤ sheet_max_cell_chars + truncMarker.length := by
  by_cases h : sheet_max_cell_chars < result.length
  · rw [truncate_result_of_gt _ h]
    simp only [List.length_append, List.length_take]
    omega
  · rw [truncate_result_of_le _ (by omega)]
    omega

lemma truncate_transcript_of_le (t : Str) (h : t.length ≤ gemini_max_chars) :
    truncate_transcript t = t := by
  unfold truncate_transcript
  rw [if_neg (by omega)]

lemma truncate_transcript_of_gt (t : Str) (h : gemini_max_chars < t.length) :
    truncate_transcript t = t.take gemini_max_chars ++ truncMarker := by
  unfold truncate_transcript
  rw [if_pos h]

/-! ### Status-writer lemmas -/

lemma update_sheet_status_fst (env : Env) (row : Nat) (status result : Str) :
    (update_sheet_status env row status result).1 = Except.ok () := rfl

lemma update_sheet_status_snd (env : Env) (row : Nat) (status result : Str) :
    (update_sheet_status env row status result).2 =
      Eff.statusCall row status result ::
        (write_result_effs env row result ++ write_status_effs env row status) := rfl

lemma mem_write_result_effs (env : Env) (row : Nat) (result : Str) (h : result ≠ []) :
    Eff.cellWrite Col.B row (truncate_result result) ∈ write_result_effs env row result := by
  simp only [write_result_effs, if_neg h]
  cases env.update_acell Col.B row (truncate_result result) <;> simp

lemma mem_write_status_effs (env : Env) (row : Nat) (status : Str) :
    Eff.cellWrite Col.C row status ∈ write_status_effs env row status := by
  unfold write_status_effs
  cases env.update_acell Col.C row status <;> simp

lemma write_result_effs_cellB (env : Env) (row : Nat) (result v : Str)
    (h : Eff.cellWrite Col.B row v ∈ write_result_effs env row result) :
    v = truncate_result result := by
  simp only [write_result_effs] at h
  split at h
  · simp at h
  · revert h
    cases env.update_acell Col.B row (truncate_result result) <;>
      · intro h
        simp at h
        exact h

lemma write_status_effs_cellB (env : Env) (row : Nat) (status v : Str)
    (h : Eff.cellWrite Col.B row v ∈ write_status_effs env row status) : False := by
  revert h
  unfold write_status_effs
  cases env.update_acell Col.C row status <;>
    · intro h
      simp at h

/-! ### Summarizer lemma -/

lemma geminiSent_analyze (env : Env) (t p : Str) :
    geminiSent (analyze_with_gemini env t p).2 = [truncate_transcript t] := by
  simp only [analyze_with_gemini]
  cases env.generate_content (truncate_transcript t) with
  | error e => rfl
  | ok o => cases o <;> rfl

/-! ### Claim theorems -/

/-- Claim C3, counterexample: at the concrete input of a result of 60,000
characters, the value persisted to the result column has length
50,015 (the first 50,000 characters plus the 15-character marker), which
exceeds the claimed maximum of 50,000. -/
theorem result_truncation_exceeds_50000 :
    ∃ v, Eff.cellWrite Col.B 1 v ∈
        (update_sheet_status envOk 1 COMPLETED (List.replicate 60000 'a')).2 ∧
      sheet_max_cell_chars < v.length := by
  refine ⟨truncate_result (List.replicate 60000 'a'), ?_, ?_⟩
  · rw [update_sheet_status_snd]
    exact List.mem_cons_of_mem _
      (List.mem_append_left _ (mem_write_result_effs _ _ _
        (by rw [Ne, List.replicate_eq_nil_iff]; norm_num)))
  · rw [truncate_result_of_gt _ (by rw [List.length_replicate]; norm_num [sheet_max_cell_chars])]
    rw [List.length_append, List.length_take, List.length_replicate, truncMarker_length]
    norm_num [sheet_max_cell_chars]

/-- Claim C3 (amended): every value written to the result column is the
input truncated by `truncate_result`, so its length is at most
50,000 plus the 15-character marker (50,015), and an input longer than
50,000 characters is persisted as its first 50,000 characters followed by
the marker. -/
theorem result_truncation_bounded (env : Env) (row : Nat) (status result v : Str)
    (h : Eff.cellWrite Col.B row v ∈ (update_sheet_status env row status result).2) :
    v.length ≤ sheet_max_cell_chars + truncMarker.length ∧
      (sheet_max_cell_chars < result.length →
        v = result.take sheet_max_cell_chars ++ truncMarker) := by
  rw [update_sheet_status_snd] at h
  rcases List.mem_cons.mp h with h | h
  · exact absurd h (by simp)
  rcases List.mem_append.mp h with h | h
  · have hv := write_result_effs_cellB env row result v h
    subst hv
    exact ⟨truncate_result_length result, fun hgt => truncate_result_of_gt result hgt⟩
  · exact absurd h (fun hh => write_status_effs_cellB env row status v hh)

/-- Witness for `result_truncation_bounded` at a 60,000-character result. -/
theorem result_truncation_bounded_witness :
    (truncate_result (List.replicate 60000 'a')).length ≤
        sheet_max_cell_chars + truncMarker.length ∧
      (sheet_max_cell_chars < (List.replicate 60000 'a').length →
        truncate_result (List.replicate 60000 'a') =
          (List.replicate 60000 'a').take sheet_max_cell_chars ++ truncMarker) :=
  result_truncation_bounded envOk 1 COMPLETED (List.replicate 60000 'a')
    (truncate_result (List.replicate 60000 'a'))
    (by
      rw [update_sheet_status_snd]
      exact List.mem_cons_of_mem _
        (List.mem_append_left _ (mem_write_result_effs _ _ _
          (by rw [Ne, List.replicate_eq_nil_iff]; norm_num))))

/-- Claim C6: for a non-empty result whose column-B write fails, the
Status Writer still attempts the column-C status write, and it never raises
past its own boundary. -/
theorem status_writer_independent_writes (env : Env) (row : Nat) (status result e : Str)
    (hres : result ≠ [])
    (hB : env.update_acell Col.B row (truncate_result result) = Except.error e) :
    (update_sheet_status env row status result).1 = Except.ok () ∧
      Eff.cellWrite Col.B row (truncate_result result) ∈
        (update_sheet_status env row status result).2 ∧
      Eff.cellWrite Col.C row status ∈ (update_sheet_status env row status result).2 := by
  refine ⟨update_sheet_status_fst env row status result, ?_, ?_⟩
  · rw [update_sheet_status_snd]
    exact List.mem_cons_of_mem _
      (List.mem_append_left _ (mem_write_result_effs env row result hres))
  · rw [update_sheet_status_snd]
    exact List.mem_cons_of_mem _
      (List.mem_append_right _ (mem_write_status_effs env row status))

/-- Witness for `status_writer_independent_writes` in the environment whose
column-B writes fail. -/
theorem status_writer_independent_writes_witness :
    (update_sheet_status envBFail 1 COMPLETED "r".data).1 = Except.ok () ∧
      Eff.cellWrite Col.B 1 (truncate_result "r".data) ∈
        (update_sheet_status envBFail 1 COMPLETED "r".data).2 ∧
      Eff.cellWrite Col.C 1 COMPLETED ∈
        (update_sheet_status envBFail 1 COMPLETED "r".data).2 :=
  status_writer_independent_writes envBFail 1 COMPLETED "r".data "write failed".data
    (by decide) rfl

/-- Claim C8: a transcript longer than 100,000 characters is sent to the
LLM collaborator as exactly its first 100,000 characters followed by the
truncation marker; a transcript within the limit is sent unchanged. -/
theorem summarizer_truncation_at_100000 (env : Env) (t p : Str) :
    (gemini_max_chars < t.length →
      geminiSent (analyze_with_gemini env t p).2 = [t.take gemini_max_chars ++ truncMarker]) ∧
    (t.length ≤ gemini_max_chars →
      geminiSent (analyze_with_gemini env t p).2 = [t]) := by
  constructor
  · intro h
    rw [geminiSent_analyze, truncate_transcript_of_gt t h]
  · intro h
    rw [geminiSent_analyze, truncate_transcript_of_le t h]

/-- Witness for `summarizer_truncation_at_100000` at a 150,000-character
transcript. -/
theorem summarizer_truncation_at_100000_witness :
    geminiSent (analyze_with_gemini envOk (List.replicate 150000 'a') []).2 =
      [(List.replicate 150000 'a').take gemini_max_chars ++ truncMarker] :=
  (summarizer_truncation_at_100000 envOk (List.replicate 150000 'a') []).1
    (by rw [List.length_replicate]; norm_num [gemini_max_chars])

/-- Claim C9: `is_supported_video_url` returns true exactly when some
domain of the fixed allow-list occurs as a substring of the lowercased
URL. -/
theorem classifier_allowlist_match (url : Str) :
    is_supported_video_url url = true ↔
      ∃ domain ∈ supported_domains, domain <:+: lower url := by
  simp [is_supported_video_url, containsSub, List.any_eq_true]

/-- Witness for `classifier_allowlist_match` at a mixed-case URL. -/
theorem classifier_allowlist_match_witness :
    is_supported_video_url "https://www.YouTube.com/watch".data = true ↔
      ∃ domain ∈ supported_domains,
        domain <:+: lower "https://www.YouTube.com/watch".data :=
  classifier_allowlist_match _

/-- Claim C10: both truncations apply only on strict excess: a transcript
of exactly 100,000 characters is sent unchanged, and a result of exactly
50,000 characters is persisted unchanged. -/
theorem truncation_strict_boundary (env : Env) (t p status : Str) (row : Nat) (r : Str) :
    (t.length = gemini_max_chars →
      geminiSent (analyze_with_gemini env t p).2 = [t]) ∧
    (r.length = sheet_max_cell_chars →
      Eff.cellWrite Col.B row r ∈ (update_sheet_status env row status r).2) := by
  constructor
  · intro h
    rw [geminiSent_analyze, truncate_transcript_of_le t (le_of_eq h)]
  · intro h
    have hne : r ≠ [] := by
      intro hr
      rw [hr] at h
      simp [sheet_max_cell_chars] at h
    have hmem := mem_write_result_effs env row r hne
    rw [truncate_result_of_le r (le_of_eq h)] at hmem
    rw [update_sheet_status_snd]
    exact List.mem_cons_of_mem _ (List.mem_append_left _ hmem)

/-- Witness for `truncation_strict_boundary` at the exact limits. -/
theorem truncation_strict_boundary_witness :
    geminiSent (analyze_with_gemini envOk (List.replicate 100000 'a') []).2 =
        [List.replicate 100000 'a'] ∧
      Eff.cellWrite Col.B 1 (List.replicate 50000 'b') ∈
        (update_sheet_status envOk 1 COMPLETED (List.replicate 50000 'b')).2 :=
  ⟨(truncation_strict_boundary envOk (List.replicate 100000 'a') [] COMPLETED 1
      (List.replicate 50000 'b')).1 (by rw [List.length_replicate]; rfl),
   (truncation_strict_boundary envOk (List.replicate 100000 'a') [] COMPLETED 1
      (List.replicate 50000 'b')).2 (by rw [List.length_replicate]; rfl)⟩

/-! ### Scanner lemmas -/

lemma scanRows_le_of_mem (rows : List (List Str)) :
    ∀ k e, e ∈ scanRows k rows → k ≤ e.2 := by
  induction rows with
  | nil =>
    intro k e h
    simp [scanRows] at h
  | cons r rest ih =>
    intro k e h
    simp only [scanRows] at h
    by_cases he : eligible r = true
    · rw [if_pos he] at h
      rcases List.mem_cons.mp h with h | h
      · rw [h]
      · exact Nat.le_of_succ_le (ih (k + 1) e h)
    · rw [if_neg he] at h
      exact Nat.le_of_succ_le (ih (k + 1) e h)

lemma scanRows_pairwise (rows : List (List Str)) :
    ∀ k, List.Pairwise (fun a b => a.2 < b.2) (scanRows k rows) := by
  induction rows with
  | nil =>
    intro k
    simp [scanRows]
  | cons r rest ih =>
    intro k
    simp only [scanRows]
    by_cases he : eligible r = true
    · rw [if_pos he]
      refine List.Pairwise.cons ?_ (ih (k + 1))
      intro b hb
      exact Nat.lt_of_succ_le (scanRows_le_of_mem rest (k + 1) b hb)
    · rw [if_neg he]
      exact ih (k + 1)

lemma scanRows_mem_spec (rows : List (List Str)) :
    ∀ k url i, (url, i) ∈ scanRows k rows →
      k ≤ i ∧ i - k < rows.length ∧ eligible (rows.getD (i - k) []) = true ∧
        url = rowUrl (rows.getD (i - k) []) := by
  induction rows with
  | nil =>
    intro k url i h
    simp [scanRows] at h
  | cons r rest ih =>
    intro k url i h
    simp only [scanRows] at h
    have step : (url, i) ∈ scanRows (k + 1) rest →
        k ≤ i ∧ i - k < (r :: rest).length ∧
          eligible ((r :: rest).getD (i - k) []) = true ∧
          url = rowUrl ((r :: rest).getD (i - k) []) := by
      intro h2
      obtain ⟨h1, h2l, h3, h4⟩ := ih (k + 1) url i h2
      have hik : i - k = (i - (k + 1)) + 1 := by omega
      rw [hik, List.getD_cons_succ, List.length_cons]
      exact ⟨by omega, by omega, h3, h4⟩
    by_cases he : eligible r = true
    · rw [if_pos he] at h
      rcases List.mem_cons.mp h with h | h
      · have hu : url = rowUrl r := congrArg Prod.fst h
        have hi : i = k := congrArg Prod.snd h
        subst hi
        rw [Nat.sub_self, List.getD_cons_zero]
        exact ⟨Nat.le_refl _, by simp, he, hu⟩
      · exact step h
    · rw [if_neg he] at h
      exact step h

lemma scanRows_mem_of (rows : List (List Str)) :
    ∀ k j, j < rows.length → eligible (rows.getD j []) = true →
      (rowUrl (rows.getD j []), k + j) ∈ scanRows k rows := by
  induction rows with
  | nil =>
    intro k j hj
    simp at hj
  | cons r rest ih =>
    intro k j hj he
    cases j with
    | zero =>
      rw [List.getD_cons_zero] at he ⊢
      simp only [scanRows]
      rw [if_pos he]
      exact List.mem_cons_self _ _
    | succ n =>
      rw [List.getD_cons_succ] at he ⊢
      have hn : n < rest.length := by
        simp only [List.length_cons] at hj
        omega
      have hm := ih (k + 1) n hn he
      have harith : k + 1 + n = k + (n + 1) := by omega
      rw [harith] at hm
      simp only [scanRows]
      by_cases her : eligible r = true
      · rw [if_pos her]
        exact List.mem_cons_of_mem _ hm
      · rw [if_neg her]
        exact hm

lemma eligible_status_empty (row : List Str) (h : eligible row = true) :
    rowStatus row = [] := by
  simp only [eligible] at h
  split at h
  · simp at h
  · split at h
    · simp at h
    · split at h
      · simp at h
      · rename_i h2
        rw [Bool.or_eq_true, not_or] at h2
        have h2b := h2.2
        have hstrip : (strip (rowStatus row)).isEmpty = true := by
          cases hb : (strip (rowStatus row)).isEmpty with
          | true => rfl
          | false => exact absurd (by rw [hb]; rfl) h2b
        rw [List.isEmpty_iff] at hstrip
        have h3 : strip (rowStatus row) = rowStatus row := strip_idem _
        rw [h3] at hstrip
        exact hstrip

lemma eligible_of (row : List Str) (hs : rowStatus row = [])
    (hu : rowUrl row ≠ []) (hsup : is_supported_video_url (rowUrl row) = true) :
    eligible row = true := by
  have hrow : row.isEmpty = false := by
    cases row with
    | nil => exact absurd rfl hu
    | cons a l => rfl
  have hue : (rowUrl row).isEmpty = false := by
    cases hcase : rowUrl row with
    | nil => exact absurd hcase hu
    | cons a l => rfl
  have hd : decide ((rowStatus row) ∈ [PROCESSING, COMPLETED, ERROR]) = false := by
    rw [hs]
    decide
  simp only [eligible, hrow, hue, hsup, hs, hd, strip_nil]
  rfl

/-! ### Scanner claim theorems -/

/-- Claim C4, counterexample: a row whose status cell is the non-empty
whitespace string " " is nevertheless included in the worklist (the code
strips the cell before testing it), so the Scanner does not exclude every
row with a non-empty status cell. -/
theorem scanner_includes_whitespace_status_row :
    (" ".data ≠ ([] : Str)) ∧
      (get_new_urls envWsStatus).1 = Except.ok [("https://youtu.be/abc".data, 1)] := by
  constructor
  · decide
  · rfl

/-- Claim C4 (amended): for every row whose status cell is non-empty after
stripping surrounding whitespace, the Scanner excludes that row from its
output worklist, regardless of the row's URL. -/
theorem scanner_excludes_nonempty_stripped_status (env : Env) (rows : List (List Str))
    (j : Nat) (url : Str)
    (hread : env.get_all_values = Except.ok rows)
    (hj : j < rows.length)
    (hs : rowStatus (rows.getD j []) ≠ []) :
    ∀ l, (get_new_urls env).1 = Except.ok l → (url, j + 1) ∉ l := by
  intro l hl hmem
  have hscan : (get_new_urls env).1 = Except.ok (scanRows 1 rows) := by
    unfold get_new_urls
    rw [hread]
  rw [hscan] at hl
  injection hl with hl
  subst hl
  obtain ⟨h1, h2, h3, h4⟩ := scanRows_mem_spec rows 1 url (j + 1) hmem
  simp only [Nat.add_sub_cancel] at h3
  exact hs (eligible_status_empty _ h3)

/-- Witness for `scanner_excludes_nonempty_stripped_status` at a one-row
store whose status cell is "X". -/
theorem scanner_excludes_nonempty_stripped_status_witness :
    ("https://youtu.be/abc".data, 0 + 1) ∉
      scanRows 1 [["https://youtu.be/abc".data, [], "X".data]] :=
  scanner_excludes_nonempty_stripped_status envXStatus
    [["https://youtu.be/abc".data, [], "X".data]] 0 "https://youtu.be/abc".data
    rfl (by norm_num) (by decide)
    (scanRows 1 [["https://youtu.be/abc".data, [], "X".data]]) rfl

/-- Claim C5: when the store read raises, the Scanner yields the empty
worklist, and `run` performs no store writes at all, logs, and returns
without raising. -/
theorem run_no_writes_on_read_failure (env : Env) (e : Str)
    (hread : env.get_all_values = Except.error e) :
    (get_new_urls env).1 = Except.ok [] ∧
      (run env).1 = Except.ok () ∧
      (run env).2.filter isStoreWrite = [] ∧
      ∃ m, Eff.log m ∈ (run env).2 := by
  have hg : get_new_urls env =
      (Except.ok [], [Eff.log ("Failed to get URLs from sheet: ".data ++ e)]) := by
    unfold get_new_urls
    rw [hread]
  have hr : run env =
      (Except.ok (), [Eff.log ("Failed to get URLs from sheet: ".data ++ e)] ++
        [Eff.log "No new URLs to process".data]) := by
    unfold run
    rw [hg]
  refine ⟨by rw [hg], by rw [hr], by rw [hr]; rfl, ?_⟩
  exact ⟨"No new URLs to process".data, by rw [hr]; simp⟩

/-- Witness for `run_no_writes_on_read_failure` in the environment whose
store read raises. -/
theorem run_no_writes_on_read_failure_witness :
    (get_new_urls envReadFail).1 = Except.ok [] ∧
      (run envReadFail).1 = Except.ok () ∧
      (run envReadFail).2.filter isStoreWrite = [] ∧
      ∃ m, Eff.log m ∈ (run envReadFail).2 :=
  run_no_writes_on_read_failure envReadFail "read failed".data rfl

/-- Claim C7: every row with an empty (stripped) status and a non-empty URL
accepted by the classifier is included in the worklist as
`(url, rowIndex)` with its 1-based row position, and the worklist's row
indices are strictly increasing (original row order preserved). -/
theorem scanner_includes_eligible_rows (env : Env) (rows : List (List Str))
    (hread : env.get_all_values = Except.ok rows) :
    ∀ l, (get_new_urls env).1 = Except.ok l →
      (∀ j, j < rows.length →
          rowStatus (rows.getD j []) = [] →
          rowUrl (rows.getD j []) ≠ [] →
          is_supported_video_url (rowUrl (rows.getD j [])) = true →
          (rowUrl (rows.getD j []), j + 1) ∈ l) ∧
        List.Pairwise (fun a b => a.2 < b.2) l := by
  intro l hl
  have hscan : (get_new_urls env).1 = Except.ok (scanRows 1 rows) := by
    unfold get_new_urls
    rw [hread]
  rw [hscan] at hl
  injection hl with hl
  subst hl
  constructor
  · intro j hj hs hu hsup
    have he := eligible_of _ hs hu hsup
    have hm := scanRows_mem_of rows 1 j hj he
    rwa [Nat.add_comm 1 j] at hm
  · exact scanRows_pairwise rows 1

/-- Witness for `scanner_includes_eligible_rows` at the one-row store
`demoRows`. -/
theorem scanner_includes_eligible_rows_witness :
    ("https://youtu.be/abc".data, 0 + 1) ∈ scanRows 1 demoRows ∧
      List.Pairwise (fun a b => a.2 < b.2) (scanRows 1 demoRows) := by
  constructor
  · exact (scanner_includes_eligible_rows envScan demoRows rfl
      (scanRows 1 demoRows) rfl).1 0 (by norm_num [demoRows]) (by decide) (by decide) (by decide)
  · exact (scanner_includes_eligible_rows envScan demoRows rfl
      (scanRows 1 demoRows) rfl).2

/-! ### Processor lemmas -/

lemma statusCalls_append (r : Nat) (a b : List Eff) :
    statusCalls r (a ++ b) = statusCalls r a ++ statusCalls r b :=
  List.filterMap_append a b _

lemma statusCalls_cons_statusCall_self (row : Nat) (s v : Str) (l : List Eff) :
    statusCalls row (.statusCall row s v :: l) = (s, v) :: statusCalls row l := by
  simp [statusCalls, List.filterMap_cons]

lemma statusCalls_write_result (env : Env) (row r2 : Nat) (result : Str) :
    statusCalls r2 (write_result_effs env row result) = [] := by
  simp only [write_result_effs]
  split
  · rfl
  · cases env.update_acell Col.B row (truncate_result result) <;> rfl

lemma statusCalls_write_status (env : Env) (row r2 : Nat) (status : Str) :
    statusCalls r2 (write_status_effs env row status) = [] := by
  unfold write_status_effs
  cases env.update_acell Col.C row status <;> rfl

lemma statusCalls_update_self (env : Env) (row : Nat) (status result : Str) :
    statusCalls row (update_sheet_status env row status result).2 = [(status, result)] := by
  rw [update_sheet_status_snd, statusCalls_cons_statusCall_self, statusCalls_append,
    statusCalls_write_result, statusCalls_write_status]
  rfl

lemma get_transcript_fst (env : Env) (url : Str) :
    ∃ o, (get_transcript env url).1 = Except.ok o := by
  cases henv : env.supadata_transcript url with
  | error e => exact ⟨none, by simp [get_transcript, henv]⟩
  | ok resp =>
    cases hx : extract_transcript resp with
    | none => exact ⟨none, by simp [get_transcript, henv, hx]⟩
    | some c => exact ⟨some c, by simp [get_transcript, henv, hx]⟩

lemma statusCalls_get_transcript (env : Env) (url : Str) (r : Nat) :
    statusCalls r (get_transcript env url).2 = [] := by
  cases henv : env.supadata_transcript url with
  | error e => simp [get_transcript, henv, statusCalls]
  | ok resp =>
    cases hx : extract_transcript resp with
    | none => simp [get_transcript, henv, hx, statusCalls]
    | some c => simp [get_transcript, henv, hx, statusCalls]

lemma analyze_fst (env : Env) (t p : Str) :
    ∃ o, (analyze_with_gemini env t p).1 = Except.ok o := by
  simp only [analyze_with_gemini]
  cases env.generate_content (truncate_transcript t) with
  | error e => exact ⟨none, rfl⟩
  | ok o =>
    cases o with
    | none => exact ⟨none, rfl⟩
    | some s => exact ⟨some s, rfl⟩

lemma statusCalls_analyze (env : Env) (t p : Str) (r : Nat) :
    statusCalls r (analyze_with_gemini env t p).2 = [] := by
  simp only [analyze_with_gemini]
  cases env.generate_content (truncate_transcript t) with
  | error e => rfl
  | ok o => cases o <;> rfl

lemma process_url_try_spec (env : Env) (url : Str) (row : Nat) :
    (∃ a, (process_url_try env url row).1 = Except.ok true ∧
        statusCalls row (process_url_try env url row).2 = [(COMPLETED, a)]) ∨
      (∃ e, (process_url_try env url row).1 = Except.error e ∧
        statusCalls row (process_url_try env url row).2 = []) := by
  obtain ⟨o, ho⟩ := get_transcript_fst env url
  have ht2 := statusCalls_get_transcript env url row
  cases o with
  | none =>
    refine Or.inr ⟨noTranscriptMsg, ?_, ?_⟩
    · simp only [process_url_try, ho]
    · simp only [process_url_try, ho]
      exact ht2
  | some transcript =>
    by_cases hc : transcript = []
    · refine Or.inr ⟨noTranscriptMsg, ?_, ?_⟩
      · simp only [process_url_try, ho, if_pos hc]
      · simp only [process_url_try, ho, if_pos hc]
        exact ht2
    · obtain ⟨oa, hoa⟩ := analyze_fst env transcript env.prompt
      have ha2 := statusCalls_analyze env transcript env.prompt row
      cases oa with
      | none =>
        refine Or.inr ⟨geminiFailedMsg, ?_, ?_⟩
        · simp only [process_url_try, ho, if_neg hc, hoa]
        · simp only [process_url_try, ho, if_neg hc, hoa]
          rw [statusCalls_append, ht2, ha2]
          rfl
      | some analysis =>
        by_cases hca : analysis = []
        · refine Or.inr ⟨geminiFailedMsg, ?_, ?_⟩
          · simp only [process_url_try, ho, if_neg hc, hoa, if_pos hca]
          · simp only [process_url_try, ho, if_neg hc, hoa, if_pos hca]
            rw [statusCalls_append, ht2, ha2]
            rfl
        · refine Or.inl ⟨analysis, ?_, ?_⟩
          · simp only [process_url_try, ho, if_neg hc, hoa, if_neg hca,
              update_sheet_status_fst]
          · simp only [process_url_try, ho, if_neg hc, hoa, if_neg hca,
              update_sheet_status_fst]
            rw [statusCalls_append, statusCalls_append, ht2, ha2,
              statusCalls_update_self]
            rfl

lemma process_url_spec (env : Env) (url : Str) (row : Nat) :
    ((process_url env url row).1 = Except.ok true ∧
        ∃ a, statusCalls row (process_url env url row).2 =
          [(PROCESSING, []), (COMPLETED, a)]) ∨
      ((process_url env url row).1 = Except.ok false ∧
        ∃ e, statusCalls row (process_url env url row).2 =
          [(PROCESSING, []), (ERROR, errPrefix ++ e)]) := by
  rcases process_url_try_spec env url row with ⟨a, h1, h2⟩ | ⟨e, h1, h2⟩
  · refine Or.inl ⟨?_, a, ?_⟩
    · simp only [process_url, update_sheet_status_fst, h1]
    · simp only [process_url, update_sheet_status_fst, h1]
      rw [statusCalls_append, statusCalls_update_self, h2]
      rfl
  · refine Or.inr ⟨?_, e, ?_⟩
    · simp only [process_url, update_sheet_status_fst, h1]
    · simp only [process_url, update_sheet_status_fst, h1]
      rw [statusCalls_append, statusCalls_append, statusCalls_update_self, h2,
        statusCalls_update_self]
      rfl

/-! ### Processor claim theorems -/

/-- Claim C1: `process_url` never raises to its caller: for every
environment it returns `True` or `False`, and on failure the Status Writer
is invoked for that row with `ERROR` and a message starting with
"Error: "; moreover every failure raised inside the `try` block (steps 2-4)
is caught at the processor boundary, converted to that `ERROR` write with
the failure's description, and `False` is returned. -/
theorem process_url_contains_failures (env : Env) (url : Str) (row : Nat) :
    ((process_url env url row).1 = Except.ok true ∨
      ((process_url env url row).1 = Except.ok false ∧
        ∃ msg, Eff.statusCall row ERROR msg ∈ (process_url env url row).2 ∧
          errPrefix <+: msg)) ∧
    ∀ e, (process_url_try env url row).1 = Except.error e →
      (process_url env url row).1 = Except.ok false ∧
        Eff.statusCall row ERROR (errPrefix ++ e) ∈ (process_url env url row).2 := by
  constructor
  case right =>
    intro e he
    constructor
    · simp only [process_url, update_sheet_status_fst, he]
    · simp only [process_url, update_sheet_status_fst, he]
      refine List.mem_append_right _ ?_
      rw [update_sheet_status_snd]
      exact List.mem_cons_self _ _
  case left =>
  rcases process_url_spec env url row with ⟨h1, _, _⟩ | ⟨h1, e, h2⟩
  · exact Or.inl h1
  · right
    refine ⟨h1, errPrefix ++ e, ?_, List.prefix_append _ _⟩
    have hmem : (ERROR, errPrefix ++ e) ∈ statusCalls row (process_url env url row).2 := by
      rw [h2]
      simp
    simp only [statusCalls] at hmem
    rw [List.mem_filterMap] at hmem
    obtain ⟨eff, heff, hf⟩ := hmem
    cases eff with
    | statusCall r s v =>
      simp only at hf
      split at hf
      · rename_i hr
        simp only [Option.some.injEq, Prod.mk.injEq] at hf
        obtain ⟨hs, hv⟩ := hf
        subst hs
        subst hv
        subst hr
        exact heff
      · exact absurd hf (by simp)
    | cellWrite c r2 v => simp at hf
    | geminiCall c => simp at hf
    | log m => simp at hf

/-- Witness for `process_url_contains_failures` in the environment whose
transcription collaborator raises. -/
theorem process_url_contains_failures_witness :
    (process_url envFetchFail "u".data 1).1 = Except.ok false ∧
      Eff.statusCall 1 ERROR (errPrefix ++ noTranscriptMsg) ∈
        (process_url envFetchFail "u".data 1).2 :=
  (process_url_contains_failures envFetchFail "u".data 1).2 noTranscriptMsg rfl

/-- Claim C2: within one `process_url` attempt, the Status-Writer calls for
the row are exactly `PROCESSING` (with no result) followed by exactly one
terminal status: `COMPLETED` on success, `ERROR` on failure. -/
theorem process_url_status_monotonic (env : Env) (url : Str) (row : Nat) :
    ∃ v, ((process_url env url row).1 = Except.ok true ∧
        statusCalls row (process_url env url row).2 =
          [(PROCESSING, []), (COMPLETED, v)]) ∨
      ((process_url env url row).1 = Except.ok false ∧
        statusCalls row (process_url env url row).2 =
          [(PROCESSING, []), (ERROR, v)]) := by
  rcases process_url_spec env url row with ⟨h1, a, h2⟩ | ⟨h1, e, h2⟩
  · exact ⟨a, Or.inl ⟨h1, h2⟩⟩
  · exact ⟨errPrefix ++ e, Or.inr ⟨h1, h2⟩⟩

/-- Witness for `process_url_status_monotonic` in the environment whose
transcription collaborator raises. -/
theorem process_url_status_monotonic_witness :
    ∃ v, ((process_url envFetchFail "u".data 1).1 = Except.ok true ∧
        statusCalls 1 (process_url envFetchFail "u".data 1).2 =
          [(PROCESSING, []), (COMPLETED, v)]) ∨
      ((process_url envFetchFail "u".data 1).1 = Except.ok false ∧
        statusCalls 1 (process_url envFetchFail "u".data 1).2 =
          [(PROCESSING, []), (ERROR, v)]) :=
  process_url_status_monotonic envFetchFail "u".data 1

end YtAuto
